import Mathlib

/-!
Shallow embedding of src/hsyclass.py: the record builder (Property.__init__),
the tree flattener (HSYdatabase.xmltodict), the deduplicating store, the
address indexer (HSYdatabase.create_addressdict) and the lookup methods.
Python floats are modelled as exact rationals and Python runtime exceptions
as an explicit error type.
-/

namespace HSY

/-- Python runtime errors that the modelled code can raise. -/
inductive PyError where
  | indexError
  | keyError
deriving DecidableEq, Repr

/-- A Python value as stored on a Property attribute: int, float (modelled
as an exact rational), string, or None. -/
inductive Value where
  | vInt : ℤ → Value
  | vFloat : ℚ → Value
  | vStr : String → Value
  | vNone : Value
deriving DecidableEq, Repr

/-- Python dict lookup d[k] on an insertion-ordered association list (first
match; keys are unique in every dict the code builds). none models a
KeyError being raised. -/
def dictGet? {κ α : Type} [DecidableEq κ] : List (κ × α) → κ → Option α
  | [], _ => none
  | (k, v) :: rest, key => if k = key then some v else dictGet? rest key

/-- Python dict assignment d[k] = v: replaces the value in place when the
key exists, appends at the end otherwise (insertion order preserved). -/
def dictSet {κ α : Type} [DecidableEq κ] : List (κ × α) → κ → α → List (κ × α)
  | [], key, val => [(key, val)]
  | (k, v) :: rest, key, val =>
    if k = key then (key, val) :: rest else (k, v) :: dictSet rest key val

/-- Split a character list on the dot character, as Python str.split does. -/
def splitDots : List Char → List (List Char)
  | [] => [[]]
  | c :: rest =>
    if c = '.' then [] :: splitDots rest
    else
      match splitDots rest with
      | [] => [[c]]
      | h :: t => (c :: h) :: t

/-- Numeric value of a digit string. -/
def digitsVal (l : List Char) : ℕ :=
  l.foldl (fun a c => 10 * a + (c.toNat - 48)) 0

/-- Models Python float(s) on unsigned plain decimal literals: digits with
an optional dot ("81", "81.0000003", "1.", ".5"). Exponents, infinities,
nan, underscores and surrounding whitespace are outside the modelled
fragment of the builtin. -/
def parseUnsigned (l : List Char) : Option ℚ :=
  match splitDots l with
  | [ip] =>
    if !ip.isEmpty && ip.all Char.isDigit then some (digitsVal ip : ℚ) else none
  | [ip, fp] =>
    if (!ip.isEmpty || !fp.isEmpty) && ip.all Char.isDigit && fp.all Char.isDigit then
      some ((digitsVal ip : ℚ) + (digitsVal fp : ℚ) / (10 : ℚ) ^ fp.length)
    else none
  | _ => none

/-- Models the Python builtin float on a string: an optional sign followed
by an unsigned plain decimal literal. -/
def parseFloat (s : String) : Option ℚ :=
  match s.toList with
  | '-' :: rest => (parseUnsigned rest).map (fun q => -q)
  | '+' :: rest => parseUnsigned rest
  | l => parseUnsigned l

/-- The Python builtin int applied to a float: truncation toward zero. -/
def pytrunc (q : ℚ) : ℤ := if 0 ≤ q then ⌊q⌋ else ⌈q⌉

/-- Auxiliary for the Python substring test: pat is a leading run of l. -/
def startsWithChars : List Char → List Char → Bool
  | [], _ => true
  | _ :: _, [] => false
  | p :: ps, c :: cs => p == c && startsWithChars ps cs

/-- The Python in operator on strings: pat occurs contiguously in l. -/
def containsChars (pat : List Char) : List Char → Bool
  | [] => startsWithChars pat []
  | c :: cs => startsWithChars pat (c :: cs) || containsChars pat cs

/-- hsyclass.py line 330: ('tun' in key) or (key in ['vtj_prt', 'posno']). -/
def identKey (key : String) : Bool :=
  containsChars "tun".toList key.toList || key == "vtj_prt" || key == "posno"

/-- The loop variable value after the try/except of Property.__init__
(hsyclass.py lines 306-325): the statement value = float(value) rebinds the
variable, so after the block it holds the parsed float when parsing
succeeded, and the original string (or None) otherwise. -/
def reboundValue : Option String → Value
  | none => Value.vNone
  | some s =>
    match parseFloat s with
    | none => Value.vStr s
    | some q => Value.vFloat q

/-- What the try/except of Property.__init__ (hsyclass.py lines 306-325)
stores with setattr: float(value) is attempted; on success, when
abs(mod(value, 1)) < 1e-6 (numpy mod, so the fractional part value -
floor(value) in [0, 1)) the value is stored as int(value), else as the
float; on any failure (non-numeric string, None) the raw value is stored
unchanged. -/
def coerceValue : Option String → Value
  | none => Value.vNone
  | some s =>
    match parseFloat s with
    | none => Value.vStr s
    | some q =>
      if |q - (⌊q⌋ : ℚ)| < 1 / 1000000 then Value.vInt (pytrunc q)
      else Value.vFloat q

/-- The attribute finally stored for one key by Property.__init__: the
coerced value from the try/except, overwritten (hsyclass.py lines 330-333)
with the current binding of the loop variable value when the key is an
identifier key. -/
def storeField (key : String) (v : Option String) : Value :=
  if identKey key then reboundValue v else coerceValue v

/-- A Property object: its dynamically assigned attributes, in assignment
order (hsyclass.py lines 273-333). -/
structure Property where
  attrs : List (String × Value)
deriving DecidableEq, Repr

/-- Property.__init__ (hsyclass.py lines 287-333): one attribute per entry
of the supplied propertydict. -/
def Property.init (propertydict : List (String × Option String)) : Property :=
  ⟨propertydict.map (fun kv => (kv.1, storeField kv.1 kv.2))⟩

/-- Property.address (hsyclass.py lines 335-352): the katu and osno1
attributes when present, with None standing in for each missing one. -/
def Property.address (p : Property) : Value × Value :=
  match dictGet? p.attrs "katu", dictGet? p.attrs "osno1" with
  | some k, some o => (k, o)
  | some k, none => (k, Value.vNone)
  | none, some o => (Value.vNone, o)
  | none, none => (Value.vNone, Value.vNone)

/-- The state of an HSYdatabase while xmltodict runs: the properties dict
(insertion-ordered, keyed by the raw vtj_prt entry of the field-map) and the
duplicates list. -/
structure DBState where
  properties : List (Option String × Property)
  duplicates : List Property
deriving DecidableEq, Repr

/-- hsyclass.py lines 248-261: the try block looks up propdata at vtj_prt
(KeyError when the field is absent, re-raised by the except branch, which
evaluates the same lookup) and then the properties dict at that key; on a
hit the new Property is appended to duplicates, on a KeyError the except
branch stores the new Property under the raw key. -/
def insertProp (st : DBState) (propdata : List (String × Option String)) :
    Except PyError DBState :=
  match dictGet? propdata "vtj_prt" with
  | none => Except.error PyError.keyError
  | some id =>
    match dictGet? st.properties id with
    | some _ => Except.ok ⟨st.properties, st.duplicates ++ [Property.init propdata]⟩
    | none => Except.ok ⟨dictSet st.properties id (Property.init propdata), st.duplicates⟩

/-- An XML element as handled by xmltodict: tag, text and child list. -/
inductive XML where
  | node (tag : String) (text : Option String) (children : List XML)

/-- The tag of an element. -/
def XML.tag : XML → String
  | .node t _ _ => t

/-- The text of an element (None when absent). -/
def XML.text : XML → Option String
  | .node _ tx _ => tx

/-- The children of an element. -/
def XML.children : XML → List XML
  | .node _ _ cs => cs

/-- hsyclass.py line 245: item.tag.split on the closing-brace character,
last piece: the characters after the last closing brace, or the whole tag
when it has none. -/
def tagKey (tag : String) : String :=
  String.mk (tag.toList.foldl (fun acc c => if c = '\x7d' then [] else acc ++ [c]) [])

/-- hsyclass.py lines 239-245: the propdata dict built from the items of a
terminal group. -/
def buildPropdata (items : List XML) : List (String × Option String) :=
  items.foldl (fun pd item => dictSet pd (tagKey item.tag) item.text) []

mutual

/-- One iteration of the for loop of xmltodict (hsyclass.py lines 232-261)
on child: the test len(child[0]) raises IndexError when child has no
children; when the first grandchild itself has children the code recurses
into child; otherwise child is a terminal group whose items are read into
propdata and stored. -/
def stepChild (child : XML) (st : DBState) : Except PyError DBState :=
  match child with
  | .node _ _ [] => Except.error PyError.indexError
  | .node _ _ (first :: items) =>
    if (XML.children first).length ≠ 0 then flattenChildren (first :: items) st
    else insertProp st (buildPropdata (first :: items))
termination_by sizeOf child

/-- The for loop of xmltodict over a child list, threading the database
state and propagating the first uncaught exception. -/
def flattenChildren (l : List XML) (st : DBState) : Except PyError DBState :=
  match l with
  | [] => Except.ok st
  | child :: rest =>
    match stepChild child st with
    | Except.error e => Except.error e
    | Except.ok st' => flattenChildren rest st'
termination_by sizeOf l

end

/-- HSYdatabase.xmltodict (hsyclass.py lines 227-262): iterate over the
children of the supplied element. -/
def xmltodict (etree : XML) (st : DBState) : Except PyError DBState :=
  flattenChildren (XML.children etree) st

/-- The address dict self.address: street value to house-number value to
the list of vtj_prt keys registered there. -/
abbrev AddrDict := List (Value × List (Value × List (Option String)))

/-- Net effect of one loop body of create_addressdict (hsyclass.py lines
93-112): the two try/except blocks create the missing street dict and
number list on demand, then the key is appended to the list at street and
number. -/
def addAddress (ad : AddrDict) (street number : Value) (key : Option String) : AddrDict :=
  match dictGet? ad street with
  | none => dictSet ad street [(number, [key])]
  | some inner =>
    match dictGet? inner number with
    | none => dictSet ad street (dictSet inner number [key])
    | some l => dictSet ad street (dictSet inner number (l ++ [key]))

/-- One iteration of create_addressdict for a (key, element) pair of the
properties dict. -/
def addrStep (ad : AddrDict) (kp : Option String × Property) : AddrDict :=
  addAddress ad (Property.address kp.2).1 (Property.address kp.2).2 kp.1

/-- HSYdatabase.create_addressdict (hsyclass.py lines 89-112), run once over
the properties dict in insertion order, starting from the empty address
dict set up in __init__. -/
def create_addressdict (props : List (Option String × Property)) : AddrDict :=
  props.foldl addrStep []

/-- The identifiers filed in the address dict under street and number
(empty when either key is absent). -/
def addrLookup (ad : AddrDict) (street number : Value) : List (Option String) :=
  ((dictGet? ad street).bind (fun inner => dictGet? inner number)).getD []

/-- HSYdatabase.get_propertyaddress (hsyclass.py lines 264-266):
self.properties[identifier].address(), KeyError when the identifier is
absent. -/
def get_propertyaddress (db : DBState) (identifier : Option String) :
    Except PyError (Value × Value) :=
  match dictGet? db.properties identifier with
  | none => Except.error PyError.keyError
  | some p => Except.ok (Property.address p)

/-- HSYdatabase.get_propertyobj (hsyclass.py lines 268-270):
self.properties[identifier], KeyError when the identifier is absent. -/
def get_propertyobj (db : DBState) (identifier : Option String) :
    Except PyError Property :=
  match dictGet? db.properties identifier with
  | none => Except.error PyError.keyError
  | some p => Except.ok p

/-! Helper lemmas about the dict operations. -/

theorem dictGet?_dictSet_self {κ α : Type} [DecidableEq κ]
    (d : List (κ × α)) (k : κ) (v : α) :
    dictGet? (dictSet d k v) k = some v := by
  induction d with
  | nil => simp [dictSet, dictGet?]
  | cons hd t ih =>
    obtain ⟨k0, v0⟩ := hd
    by_cases hk : k0 = k
    · subst hk
      simp [dictSet, dictGet?]
    · simp [dictSet, dictGet?, hk, ih]

theorem dictGet?_dictSet_ne {κ α : Type} [DecidableEq κ]
    (d : List (κ × α)) (k k' : κ) (v : α) (h : k' ≠ k) :
    dictGet? (dictSet d k v) k' = dictGet? d k' := by
  have hne : ¬ (k = k') := fun hh => h hh.symm
  induction d with
  | nil => simp [dictSet, dictGet?, hne]
  | cons hd t ih =>
    obtain ⟨k0, v0⟩ := hd
    by_cases hk : k0 = k
    · subst hk
      simp [dictSet, dictGet?, hne]
    · simp [dictSet, dictGet?, hk, ih]

theorem dictGet?_mem {κ α : Type} [DecidableEq κ]
    {d : List (κ × α)} {k : κ} {v : α} (h : dictGet? d k = some v) :
    (k, v) ∈ d := by
  induction d with
  | nil => simp [dictGet?] at h
  | cons hd t ih =>
    obtain ⟨k0, v0⟩ := hd
    by_cases hk : k0 = k
    · subst hk
      simp [dictGet?] at h
      subst h
      exact List.mem_cons_self _ _
    · simp [dictGet?, hk] at h
      exact List.mem_cons_of_mem _ (ih h)

theorem dictSet_eq_append {κ α : Type} [DecidableEq κ]
    {d : List (κ × α)} {k : κ} (v : α) (h : dictGet? d k = none) :
    dictSet d k v = d ++ [(k, v)] := by
  induction d with
  | nil => simp [dictSet]
  | cons hd t ih =>
    obtain ⟨k0, v0⟩ := hd
    by_cases hk : k0 = k
    · subst hk
      simp [dictGet?] at h
    · simp [dictGet?, hk] at h
      simp [dictSet, hk, ih h]

theorem mem_dictSet {κ α : Type} [DecidableEq κ]
    {d : List (κ × α)} {k k' : κ} {v v' : α} (h : (k', v') ∈ dictSet d k v) :
    (k', v') ∈ d ∨ (k' = k ∧ v' = v) := by
  induction d with
  | nil =>
    simp [dictSet] at h
    exact Or.inr h
  | cons hd t ih =>
    obtain ⟨k0, v0⟩ := hd
    by_cases hk : k0 = k
    · subst hk
      rw [dictSet, if_pos rfl] at h
      rcases List.mem_cons.mp h with heq | ht
      · right
        exact ⟨congrArg Prod.fst heq, congrArg Prod.snd heq⟩
      · left
        exact List.mem_cons_of_mem _ ht
    · rw [dictSet, if_neg hk] at h
      rcases List.mem_cons.mp h with heq | ht
      · left
        exact heq ▸ List.mem_cons_self _ _
      · rcases ih ht with h1 | h2
        · exact Or.inl (List.mem_cons_of_mem _ h1)
        · exact Or.inr h2

/-! Helper lemmas about the address indexer. -/

theorem addAddress_eq_nil {ad : AddrDict} {s : Value} (n : Value) (k : Option String)
    (hs : dictGet? ad s = none) :
    addAddress ad s n k = dictSet ad s [(n, [k])] := by
  unfold addAddress
  simp only [hs]

theorem addAddress_eq_new_number {ad : AddrDict} {s : Value}
    {inner : List (Value × List (Option String))} (n : Value) (k : Option String)
    (hs : dictGet? ad s = some inner) (hn : dictGet? inner n = none) :
    addAddress ad s n k = dictSet ad s (dictSet inner n [k]) := by
  unfold addAddress
  simp only [hs, hn]

theorem addAddress_eq_append {ad : AddrDict} {s : Value}
    {inner : List (Value × List (Option String))} {l : List (Option String)}
    (n : Value) (k : Option String)
    (hs : dictGet? ad s = some inner) (hn : dictGet? inner n = some l) :
    addAddress ad s n k = dictSet ad s (dictSet inner n (l ++ [k])) := by
  unfold addAddress
  simp only [hs, hn]

theorem addrLookup_dictSet_self (ad : AddrDict) (s n0 : Value)
    (inner : List (Value × List (Option String))) :
    addrLookup (dictSet ad s inner) s n0 = (dictGet? inner n0).getD [] := by
  unfold addrLookup
  rw [dictGet?_dictSet_self]
  rfl

theorem addrLookup_dictSet_ne (ad : AddrDict) {s s0 : Value} (n0 : Value)
    (inner : List (Value × List (Option String))) (hss : s0 ≠ s) :
    addrLookup (dictSet ad s inner) s0 n0 = addrLookup ad s0 n0 := by
  unfold addrLookup
  rw [dictGet?_dictSet_ne _ _ _ _ hss]

theorem mem_addrLookup_addAddress_self (ad : AddrDict) (s n : Value) (k : Option String) :
    k ∈ addrLookup (addAddress ad s n k) s n := by
  cases hs : dictGet? ad s with
  | none =>
    rw [addAddress_eq_nil n k hs, addrLookup_dictSet_self]
    simp [dictGet?]
  | some inner =>
    cases hn : dictGet? inner n with
    | none =>
      rw [addAddress_eq_new_number n k hs hn, addrLookup_dictSet_self,
        dictGet?_dictSet_self]
      simp
    | some l =>
      rw [addAddress_eq_append n k hs hn, addrLookup_dictSet_self,
        dictGet?_dictSet_self]
      simp

theorem mem_addrLookup_addAddress_of_mem {ad : AddrDict} {s0 n0 : Value}
    {k0 : Option String} (h : k0 ∈ addrLookup ad s0 n0)
    (s n : Value) (k : Option String) :
    k0 ∈ addrLookup (addAddress ad s n k) s0 n0 := by
  by_cases hss : s0 = s
  · subst hss
    cases hs : dictGet? ad s0 with
    | none => simp [addrLookup, hs] at h
    | some inner =>
      have hmem0 : k0 ∈ (dictGet? inner n0).getD [] := by
        simpa [addrLookup, hs] using h
      by_cases hnn : n0 = n
      · subst hnn
        cases hn : dictGet? inner n0 with
        | none => simp [hn] at hmem0
        | some l =>
          rw [addAddress_eq_append n0 k hs hn, addrLookup_dictSet_self,
            dictGet?_dictSet_self]
          rw [hn] at hmem0
          simp at hmem0 ⊢
          exact Or.inl hmem0
      · cases hn : dictGet? inner n with
        | none =>
          rw [addAddress_eq_new_number n k hs hn, addrLookup_dictSet_self,
            dictGet?_dictSet_ne _ _ _ _ hnn]
          exact hmem0
        | some l =>
          rw [addAddress_eq_append n k hs hn, addrLookup_dictSet_self,
            dictGet?_dictSet_ne _ _ _ _ hnn]
          exact hmem0
  · cases hs : dictGet? ad s with
    | none =>
      rw [addAddress_eq_nil n k hs, addrLookup_dictSet_ne _ _ _ hss]
      exact h
    | some inner =>
      cases hn : dictGet? inner n with
      | none =>
        rw [addAddress_eq_new_number n k hs hn, addrLookup_dictSet_ne _ _ _ hss]
        exact h
      | some l =>
        rw [addAddress_eq_append n k hs hn, addrLookup_dictSet_ne _ _ _ hss]
        exact h

theorem mem_addrLookup_foldl {l : List (Option String × Property)} {ad : AddrDict}
    {s0 n0 : Value} {k0 : Option String} (h : k0 ∈ addrLookup ad s0 n0) :
    k0 ∈ addrLookup (List.foldl addrStep ad l) s0 n0 := by
  induction l generalizing ad with
  | nil => exact h
  | cons p t ih =>
    rw [List.foldl_cons]
    exact ih (mem_addrLookup_addAddress_of_mem h _ _ _)

theorem mem_addrLookup_foldl_of_mem {l : List (Option String × Property)}
    {key : Option String} {p : Property} (h : (key, p) ∈ l) (ad : AddrDict) :
    key ∈ addrLookup (List.foldl addrStep ad l)
      (Property.address p).1 (Property.address p).2 := by
  induction l generalizing ad with
  | nil => simp at h
  | cons hd t ih =>
    rcases List.mem_cons.mp h with heq | ht
    · subst heq
      rw [List.foldl_cons]
      exact mem_addrLookup_foldl (mem_addrLookup_addAddress_self ad _ _ _)
    · rw [List.foldl_cons]
      exact ih ht _

theorem addAddress_nonempty {ad : AddrDict}
    (h : ∀ s inner, (s, inner) ∈ ad → ∀ n l, (n, l) ∈ inner → l ≠ [])
    (street number : Value) (key : Option String) :
    ∀ s inner, (s, inner) ∈ addAddress ad street number key →
      ∀ n l, (n, l) ∈ inner → l ≠ [] := by
  intro s inner hmem n l hl
  cases hs : dictGet? ad street with
  | none =>
    rw [addAddress_eq_nil number key hs] at hmem
    rcases mem_dictSet hmem with h1 | ⟨_, h2⟩
    · exact h s inner h1 n l hl
    · subst h2
      rcases List.mem_cons.mp hl with heq | ht
      · have : l = [key] := congrArg Prod.snd heq
        subst this
        simp
      · simp at ht
  | some inner0 =>
    have hin0 : ∀ n l, (n, l) ∈ inner0 → l ≠ [] := h street inner0 (dictGet?_mem hs)
    cases hn : dictGet? inner0 number with
    | none =>
      rw [addAddress_eq_new_number number key hs hn] at hmem
      rcases mem_dictSet hmem with h1 | ⟨_, h2⟩
      · exact h s inner h1 n l hl
      · subst h2
        rcases mem_dictSet hl with h3 | ⟨_, h4⟩
        · exact hin0 n l h3
        · subst h4
          simp
    | some l0 =>
      rw [addAddress_eq_append number key hs hn] at hmem
      rcases mem_dictSet hmem with h1 | ⟨_, h2⟩
      · exact h s inner h1 n l hl
      · subst h2
        rcases mem_dictSet hl with h3 | ⟨_, h4⟩
        · exact hin0 n l h3
        · subst h4
          simp

theorem foldl_addrStep_nonempty (l : List (Option String × Property)) :
    ∀ ad, (∀ s inner, (s, inner) ∈ ad → ∀ n ks, (n, ks) ∈ inner → ks ≠ []) →
      ∀ s inner, (s, inner) ∈ List.foldl addrStep ad l →
        ∀ n ks, (n, ks) ∈ inner → ks ≠ [] := by
  induction l with
  | nil => intro ad h; exact h
  | cons p t ih =>
    intro ad h
    rw [List.foldl_cons]
    exact ih _ (addAddress_nonempty h _ _ _)

/-! Helper lemmas about the tree flattener. -/

theorem flattenChildren_nil (st : DBState) : flattenChildren [] st = Except.ok st := by
  simp [flattenChildren]

theorem flattenChildren_cons (c : XML) (rest : List XML) (st : DBState) :
    flattenChildren (c :: rest) st =
      match stepChild c st with
      | Except.error e => Except.error e
      | Except.ok st' => flattenChildren rest st' := by
  simp [flattenChildren]

theorem stepChild_no_children (t : String) (tx : Option String) (st : DBState) :
    stepChild (XML.node t tx []) st = Except.error PyError.indexError := by
  simp [stepChild]

theorem flattenChildren_append (l1 l2 : List XML) (st : DBState) :
    flattenChildren (l1 ++ l2) st =
      match flattenChildren l1 st with
      | Except.error e => Except.error e
      | Except.ok st' => flattenChildren l2 st' := by
  induction l1 generalizing st with
  | nil => simp [flattenChildren]
  | cons c t ih =>
    rw [List.cons_append, flattenChildren_cons, flattenChildren_cons]
    cases h : stepChild c st with
    | error e => simp
    | ok st' => exact ih st'

/-! Helper evaluation lemmas for the record builder and the facade. -/

theorem coerceValue_some_parse {s : String} {q : ℚ} (h : parseFloat s = some q) :
    coerceValue (some s)
      = if |q - (⌊q⌋ : ℚ)| < 1 / 1000000 then Value.vInt (pytrunc q)
        else Value.vFloat q := by
  unfold coerceValue
  simp only [h]

theorem get_propertyobj_eq (props : List (Option String × Property))
    (dups : List Property) (id : Option String) :
    get_propertyobj ⟨props, dups⟩ id
      = match dictGet? props id with
        | none => Except.error PyError.keyError
        | some p => Except.ok p := rfl

theorem get_propertyaddress_eq (props : List (Option String × Property))
    (dups : List Property) (id : Option String) :
    get_propertyaddress ⟨props, dups⟩ id
      = match dictGet? props id with
        | none => Except.error PyError.keyError
        | some p => Except.ok (Property.address p) := rfl

/-! The claims. -/

/-- Claim C1: the claim (and the code's own docstring and comments) says
identifier fields, names containing tun or equal to vtj_prt or posno, keep
the original unparsed string verbatim. The code instead stores the current
binding of the loop variable, which float(value) rebound to the parsed
float whenever the raw string is numeric-looking: posno = "00100" is stored
as the float 100 (leading zeros lost) and vtj_prt = "123" as the float 123.
This theorem evaluates the record builder at those failing inputs. -/
theorem c1_identifier_overwritten_with_float :
    storeField "posno" (some "00100") = Value.vFloat 100
    ∧ storeField "vtj_prt" (some "123") = Value.vFloat 123
    ∧ Value.vFloat 100 ≠ Value.vStr "00100" := by
  refine ⟨by decide, by decide, by decide⟩

/-- Claim C2 counterexample: the input "2.9999997" parses to a value within
1e-6 of its nearest integer 3, yet the builder stores the float unchanged
rather than the integer 3: the code tests the fractional part
value - floor(value), which is 0.9999997 here, not the distance to the
nearest integer. -/
theorem c2_counterexample :
    parseFloat "2.9999997" = some (29999997 / 10000000 : ℚ)
    ∧ |(29999997 / 10000000 : ℚ) - (3 : ℚ)| < 1 / 1000000
    ∧ coerceValue (some "2.9999997") = Value.vFloat (29999997 / 10000000 : ℚ)
    ∧ Value.vFloat (29999997 / 10000000 : ℚ) ≠ Value.vInt 3 := by
  have hp : parseFloat "2.9999997" = some (29999997 / 10000000 : ℚ) := by
    have h1 : parseFloat "2.9999997"
        = some ((digitsVal ['2'] : ℚ)
            + (digitsVal ['9', '9', '9', '9', '9', '9', '7'] : ℚ) / (10 : ℚ) ^ (7 : ℕ)) := rfl
    rw [h1, show digitsVal ['2'] = 2 from rfl,
      show digitsVal ['9', '9', '9', '9', '9', '9', '7'] = 9999997 from rfl]
    norm_num
  have hfloor : ⌊(29999997 / 10000000 : ℚ)⌋ = 2 := by
    rw [Int.floor_eq_iff]
    constructor
    · norm_num
    · norm_num
  have hcoerce : coerceValue (some "2.9999997") = Value.vFloat (29999997 / 10000000 : ℚ) := by
    rw [coerceValue_some_parse hp, hfloor, if_neg]
    rw [abs_of_nonneg (by norm_num)]
    norm_num
  refine ⟨hp, ?_, hcoerce, by simp⟩
  rw [abs_of_neg (by norm_num)]
  norm_num

/-- Claim C2 (amended): a parsed value is stored as an integer exactly when
its fractional part value - floor(value) is below 1e-6, and the integer
stored is int(value), truncation toward zero; for non-negative values this
integer equals round(value), the nearest integer. Values lying within 1e-6
below an integer are stored as floats (see the counterexample). -/
theorem c2_numeric_coercion (s : String) (q : ℚ) (h : parseFloat s = some q) :
    (coerceValue (some s)
        = if |q - (⌊q⌋ : ℚ)| < 1 / 1000000 then Value.vInt (pytrunc q)
          else Value.vFloat q)
    ∧ (0 ≤ q → |q - (⌊q⌋ : ℚ)| < 1 / 1000000 →
        coerceValue (some s) = Value.vInt (round q)) := by
  have hbase := coerceValue_some_parse h
  refine ⟨hbase, ?_⟩
  intro hq hfrac
  have hfl : (⌊q⌋ : ℚ) ≤ q := Int.floor_le q
  have h0 : (0 : ℚ) ≤ q - ⌊q⌋ := by linarith
  have hfrac' : q - (⌊q⌋ : ℚ) < 1 / 1000000 := by
    rw [abs_of_nonneg h0] at hfrac
    exact hfrac
  have hround : round q = ⌊q⌋ := by
    rw [round_eq]
    rw [Int.floor_eq_iff]
    constructor
    · linarith
    · linarith
  rw [hbase, if_pos hfrac, hround]
  unfold pytrunc
  rw [if_pos hq]

/-- Witness for c2_numeric_coercion at the concrete input "81". -/
theorem c2_numeric_coercion_witness :
    coerceValue (some "81") = Value.vInt (round (81 : ℚ)) :=
  (c2_numeric_coercion "81" 81 rfl).2 (by norm_num) (by norm_num)

/-- Claim C3: when a terminal group's raw vtj_prt entry is already a key of
the Store, the properties dict is left untouched, the freshly built Record
is appended at the end of the duplicates (overflow) list, and lookup of the
identifier afterwards still returns the first-seen Record. -/
theorem c3_first_write_wins (st : DBState) (propdata : List (String × Option String))
    (id : Option String) (rec : Property)
    (hid : dictGet? propdata "vtj_prt" = some id)
    (hdup : dictGet? st.properties id = some rec) :
    insertProp st propdata
        = Except.ok ⟨st.properties, st.duplicates ++ [Property.init propdata]⟩
    ∧ get_propertyobj ⟨st.properties, st.duplicates ++ [Property.init propdata]⟩ id
        = Except.ok rec := by
  constructor
  · unfold insertProp
    simp only [hid, hdup]
  · rw [get_propertyobj_eq, hdup]

/-- Witness for c3_first_write_wins: two groups both carrying vtj_prt "999". -/
theorem c3_first_write_wins_witness :
    insertProp ⟨[(some "999", Property.init [("vtj_prt", some "999"), ("katu", some "A")])], []⟩
        [("vtj_prt", some "999"), ("katu", some "B")]
      = Except.ok ⟨[(some "999", Property.init [("vtj_prt", some "999"), ("katu", some "A")])],
          [Property.init [("vtj_prt", some "999"), ("katu", some "B")]]⟩
    ∧ get_propertyobj
        ⟨[(some "999", Property.init [("vtj_prt", some "999"), ("katu", some "A")])],
          [Property.init [("vtj_prt", some "999"), ("katu", some "B")]]⟩ (some "999")
      = Except.ok (Property.init [("vtj_prt", some "999"), ("katu", some "A")]) :=
  c3_first_write_wins
    ⟨[(some "999", Property.init [("vtj_prt", some "999"), ("katu", some "A")])], []⟩
    [("vtj_prt", some "999"), ("katu", some "B")] (some "999")
    (Property.init [("vtj_prt", some "999"), ("katu", some "A")]) rfl rfl

/-- Claim C4 counterexample: a group-level node with zero children does not
yield an empty field-map and a Record: the len(child[0]) test raises
IndexError and the whole flattening fails. -/
theorem c4_counterexample :
    xmltodict (XML.node "FeatureCollection" none [XML.node "member" none []]) ⟨[], []⟩
      = Except.error PyError.indexError := by
  simp only [xmltodict, XML.children, flattenChildren_cons, stepChild_no_children]

/-- Claim C4 (amended): whenever the flattener reaches a group-level node
with zero children, all earlier siblings having been processed without an
exception, it fails with an IndexError instead of producing a Record from
an empty field-map. -/
theorem c4_zero_item_group_fails (pre : List XML) (tag : String) (text : Option String)
    (post : List XML) (st st' : DBState)
    (h : flattenChildren pre st = Except.ok st') :
    flattenChildren (pre ++ XML.node tag text [] :: post) st
      = Except.error PyError.indexError := by
  rw [flattenChildren_append, h]
  simp only [flattenChildren_cons, stepChild_no_children]

/-- Witness for c4_zero_item_group_fails with an empty prefix. -/
theorem c4_zero_item_group_fails_witness :
    flattenChildren [XML.node "group" none []] ⟨[], []⟩
      = Except.error PyError.indexError :=
  c4_zero_item_group_fails [] "group" none [] ⟨[], []⟩ ⟨[], []⟩
    (flattenChildren_nil ⟨[], []⟩)

/-- Claim C5 counterexample: a terminal group whose field-map lacks vtj_prt
crashes the build with a KeyError (raised again inside the except branch)
instead of skipping the insertion. -/
theorem c5_counterexample :
    xmltodict (XML.node "root" none
        [XML.node "member" none [XML.node "katu" (some "Mannerheimintie") []]]) ⟨[], []⟩
      = Except.error PyError.keyError := by
  have hstep : stepChild
      (XML.node "member" none [XML.node "katu" (some "Mannerheimintie") []]) ⟨[], []⟩
      = insertProp ⟨[], []⟩ (buildPropdata [XML.node "katu" (some "Mannerheimintie") []]) := by
    simp [stepChild, XML.children]
  simp only [xmltodict, XML.children, flattenChildren_cons, hstep]
  rfl

/-- Claim C5 (amended): when the field-map of a terminal group lacks the
vtj_prt field, the store step raises KeyError rather than skipping the
insertion; nothing is inserted and the build fails. -/
theorem c5_missing_identifier_raises (st : DBState)
    (propdata : List (String × Option String))
    (h : dictGet? propdata "vtj_prt" = none) :
    insertProp st propdata = Except.error PyError.keyError := by
  unfold insertProp
  simp only [h]

/-- Witness for c5_missing_identifier_raises. -/
theorem c5_missing_identifier_raises_witness :
    insertProp ⟨[], []⟩ [("katu", some "X")] = Except.error PyError.keyError :=
  c5_missing_identifier_raises ⟨[], []⟩ [("katu", some "X")] rfl

/-- Claim C6: after the address indexer runs, every Record of the Store has
its identifier filed under the (street, number) pair derived from its katu
and osno1 attributes, with None standing in for each missing field; no
Record is omitted, including Records missing both fields. -/
theorem c6_address_complete (props : List (Option String × Property))
    (key : Option String) (p : Property) (h : (key, p) ∈ props) :
    key ∈ addrLookup (create_addressdict props)
      (Property.address p).1 (Property.address p).2 :=
  mem_addrLookup_foldl_of_mem h []

/-- Witness for c6_address_complete: a Record with neither katu nor osno1
is filed under the (None, None) bucket. -/
theorem c6_address_complete_witness :
    some "7" ∈ addrLookup (create_addressdict [(some "7", Property.init [])])
      Value.vNone Value.vNone :=
  c6_address_complete [(some "7", Property.init [])] (some "7") (Property.init [])
    (List.mem_singleton.mpr rfl)

/-- Claim C7: for every identifier that is a key of the Store,
get_propertyaddress succeeds and returns exactly the (street, number) pair
under which the address indexer filed that identifier. -/
theorem c7_roundtrip (props : List (Option String × Property)) (dups : List Property)
    (id : Option String) (p : Property) (h : dictGet? props id = some p) :
    get_propertyaddress ⟨props, dups⟩ id = Except.ok (Property.address p)
    ∧ id ∈ addrLookup (create_addressdict props)
        (Property.address p).1 (Property.address p).2 := by
  constructor
  · rw [get_propertyaddress_eq, h]
  · exact mem_addrLookup_foldl_of_mem (dictGet?_mem h) []

/-- Witness for c7_roundtrip at a one-record store. -/
theorem c7_roundtrip_witness :
    get_propertyaddress
        ⟨[(some "1", Property.init [("katu", some "K"), ("osno1", some "5")])], []⟩ (some "1")
      = Except.ok (Property.address (Property.init [("katu", some "K"), ("osno1", some "5")]))
    ∧ some "1" ∈ addrLookup
        (create_addressdict [(some "1", Property.init [("katu", some "K"), ("osno1", some "5")])])
        (Property.address (Property.init [("katu", some "K"), ("osno1", some "5")])).1
        (Property.address (Property.init [("katu", some "K"), ("osno1", some "5")])).2 :=
  c7_roundtrip [(some "1", Property.init [("katu", some "K"), ("osno1", some "5")])] []
    (some "1") (Property.init [("katu", some "K"), ("osno1", some "5")]) rfl

/-- Claim C8: get_propertyobj fails with KeyError iff the identifier is
absent from the Store keys, returns the stored Record when present, and its
result never depends on the duplicates (overflow) list. -/
theorem c8_lookup (props : List (Option String × Property)) (dups dups' : List Property)
    (id : Option String) :
    (get_propertyobj ⟨props, dups⟩ id = Except.error PyError.keyError
        ↔ dictGet? props id = none)
    ∧ (∀ p, dictGet? props id = some p →
        get_propertyobj ⟨props, dups⟩ id = Except.ok p)
    ∧ get_propertyobj ⟨props, dups⟩ id = get_propertyobj ⟨props, dups'⟩ id := by
  refine ⟨?_, ?_, ?_⟩
  · rw [get_propertyobj_eq]
    cases h : dictGet? props id with
    | none => simp
    | some p => simp
  · intro p hp
    rw [get_propertyobj_eq, hp]
  · rw [get_propertyobj_eq, get_propertyobj_eq]

/-- Witness for c8_lookup: a present key returns the stored Record. -/
theorem c8_lookup_witness :
    get_propertyobj ⟨[(some "1", Property.init [("vtj_prt", some "1")])], []⟩ (some "1")
      = Except.ok (Property.init [("vtj_prt", some "1")]) :=
  (c8_lookup [(some "1", Property.init [("vtj_prt", some "1")])] [] [] (some "1")).2.1
    (Property.init [("vtj_prt", some "1")]) rfl

/-- Claim C9: every (street, number) bucket present in the address dict
holds a non-empty list of identifiers: a lookup on present keys never
yields an empty sequence. -/
theorem c9_buckets_nonempty (props : List (Option String × Property))
    (s : Value) (inner : List (Value × List (Option String)))
    (n : Value) (ks : List (Option String))
    (h1 : (s, inner) ∈ create_addressdict props) (h2 : (n, ks) ∈ inner) :
    ks ≠ [] := by
  have base : ∀ s0 inner0, (s0, inner0) ∈ ([] : AddrDict) →
      ∀ n0 ks0, (n0, ks0) ∈ inner0 → ks0 ≠ [] := by
    intro s0 inner0 h0
    simp at h0
  exact foldl_addrStep_nonempty props [] base s inner h1 n ks h2

/-- Witness for c9_buckets_nonempty at a one-record store. -/
theorem c9_buckets_nonempty_witness :
    (Value.vNone, [(Value.vNone, [some "7"])])
        ∈ create_addressdict [(some "7", Property.init [])]
    ∧ ([some "7"] : List (Option String)) ≠ [] :=
  ⟨by decide, c9_buckets_nonempty [(some "7", Property.init [])] Value.vNone
      [(Value.vNone, [some "7"])] Value.vNone [some "7"] (by decide) (by decide)⟩

/-- Claim C10: a fresh insertion keys the Store by the raw vtj_prt entry of
the field-map, before type coercion, while the Record itself stores the
coerced attribute; for a numeric-looking identifier text the Store key (the
raw string) differs from the Record's vtj_prt value (a float). -/
theorem c10_raw_store_key :
    (∀ (st : DBState) (propdata : List (String × Option String)) (id : Option String),
        dictGet? propdata "vtj_prt" = some id →
        dictGet? st.properties id = none →
        insertProp st propdata
          = Except.ok ⟨st.properties ++ [(id, Property.init propdata)], st.duplicates⟩)
    ∧ dictGet? (Property.init [("vtj_prt", some "123")]).attrs "vtj_prt"
        = some (Value.vFloat 123)
    ∧ Value.vFloat 123 ≠ Value.vStr "123" := by
  refine ⟨?_, by decide, by decide⟩
  intro st propdata id h1 h2
  unfold insertProp
  simp only [h1, h2]
  rw [dictSet_eq_append _ h2]

/-- Witness for the universally quantified part of c10_raw_store_key. -/
theorem c10_raw_store_key_witness :
    insertProp ⟨[], []⟩ [("vtj_prt", some "123")]
      = Except.ok ⟨[(some "123", Property.init [("vtj_prt", some "123")])], []⟩ :=
  c10_raw_store_key.1 ⟨[], []⟩ [("vtj_prt", some "123")] (some "123") rfl rfl

end HSY
